import Mathlib

/-!
Verification of the real-time note-matching and session-state engine of the
DeCompose musical-notation trainer.  All definitions below are shallow
embeddings of the TypeScript source (`src/App.tsx`, `src/constants.ts`,
`src/types.ts`): pure functions become Lean functions, the React component
state becomes an explicit `AppState` record, and the event handlers become
state-transition functions.  JavaScript machine integers are modelled as
`Int`/`Nat` (all MIDI arithmetic here stays far below 2^53, where JS numbers
are exact integers).
-/

namespace DeCompose

/-! ### Pattern matcher — `isPatternMatch` in `src/App.tsx`

The source iterates over every played note as a candidate root; a root
succeeds when every interval `m - root` is in the pattern set and, under the
strict length check, the interval count equals the pattern length.
`rootMatch` is the body of the `for` loop; `isPatternMatch` is the function
itself.  Held-note sets (`Array.from(new Set(...))`) are modelled as
duplicate-free lists in insertion order. -/

def rootMatch (playedMidis pattern : List Int) (strictLength : Bool) (root : Int) : Bool :=
  let intervals := playedMidis.map (fun m => m - root)
  intervals.all (fun i => pattern.contains i) &&
    (!strictLength || intervals.length == pattern.length)

def isPatternMatch (playedMidis pattern : List Int) (strictLength : Bool) : Bool :=
  if playedMidis.length = 0 then false
  else playedMidis.any (rootMatch playedMidis pattern strictLength)

theorem rootMatch_eq_true (played pattern : List Int) (strict : Bool) (root : Int) :
    rootMatch played pattern strict root = true ↔
      (∀ m ∈ played, (m - root) ∈ pattern) ∧
        (strict = true → played.length = pattern.length) := by
  unfold rootMatch
  cases strict <;>
    simp [List.all_eq_true, List.elem_iff, List.mem_map]

theorem isPatternMatch_iff_exists_root (held pattern : List Int) (strict : Bool) :
    isPatternMatch held pattern strict = true ↔
      ∃ root ∈ held, (∀ m ∈ held, (m - root) ∈ pattern) ∧
        (strict = true → held.length = pattern.length) := by
  unfold isPatternMatch
  split
  · rename_i h
    have : held = [] := List.length_eq_zero.mp h
    subst this
    simp
  · rw [List.any_eq_true]
    constructor
    · rintro ⟨root, hmem, hroot⟩
      exact ⟨root, hmem, (rootMatch_eq_true _ _ _ _).mp hroot⟩
    · rintro ⟨root, hmem, hroot⟩
      exact ⟨root, hmem, (rootMatch_eq_true _ _ _ _).mpr hroot⟩

/-- `C1`: `isPatternMatch(held, pattern, strict)` returns `true` iff some
held note serves as a root making every interval `m - root` an element of
the pattern list (set containment), with, under `strict`, the additional
requirement that the number of held notes equal the pattern list's length;
in particular the empty held set never matches (the right-hand side is
vacuously false for `held = []`). -/
theorem isPatternMatch_spec (held pattern : List Int) (strict : Bool) :
    isPatternMatch held pattern strict = true ↔
      ∃ root ∈ held, (∀ m ∈ held, (m - root) ∈ pattern) ∧
        (strict = true → held.length = pattern.length) :=
  isPatternMatch_iff_exists_root held pattern strict

/-- Witness for `C1` at the spec's scenario 2: `{67, 60, 64}` strictly
matches the major-triad pattern `[0, 4, 7]` with root `60`. -/
theorem isPatternMatch_spec_witness :
    isPatternMatch [67, 60, 64] [0, 4, 7] true = true :=
  (isPatternMatch_spec [67, 60, 64] [0, 4, 7] true).mpr
    ⟨60, by decide, by decide⟩

/-- `C5`: transposition invariance — shifting every held note by `t`
does not change the result of `isPatternMatch`, for any pattern and
strictness flag. -/
theorem isPatternMatch_transpose (held pattern : List Int) (strict : Bool) (t : Int) :
    isPatternMatch (held.map (fun m => m + t)) pattern strict =
      isPatternMatch held pattern strict := by
  have hfun : ∀ root : Int,
      rootMatch (held.map (fun m => m + t)) pattern strict (root + t) =
        rootMatch held pattern strict root := by
    intro root
    unfold rootMatch
    have hm : (held.map (fun m => m + t)).map (fun m => m - (root + t)) =
        held.map (fun m => m - root) := by
      rw [List.map_map]
      have : ((fun m => m - (root + t)) ∘ fun m : Int => m + t) =
          fun m : Int => m - root := by
        funext m
        simp only [Function.comp_apply]
        ring
      rw [this]
    simp only [hm, List.length_map]
  unfold isPatternMatch
  simp only [List.length_map, List.any_map]
  by_cases h0 : held.length = 0
  · simp [h0]
  · simp only [h0, if_neg, ite_false]
    have : (rootMatch (held.map (fun m => m + t)) pattern strict ∘ fun m => m + t) =
        rootMatch held pattern strict := by
      funext root
      exact hfun root
    rw [this]

/-! ### Note & pitch utilities — `src/constants.ts` and the note-name
computation inside `playNote` (`src/App.tsx`) -/

/-- The `NOTES` array (sharp spellings of the 12 pitch classes from C),
written as its two tetrachord halves. -/
def NOTES : List String :=
  ["C", "C#", "D", "D#", "E", "F"] ++
    ["F#", "G", "G#", "A", "A#", "B"]

/-- `playNote`'s note-name computation: `NOTES[midi % 12]` plus
`Math.floor(midi / 12) - 1`.  `Int.emod`/`Int.fdiv` coincide with JS `%` and
`Math.floor(· / 12)` on the nonnegative MIDI range; negative arguments never
reach this code (generated key MIDI values are ≥ 0). -/
def canonicalNoteName (midi : Int) : String :=
  NOTES.getD (Int.emod midi 12).toNat "" ++ toString (Int.fdiv midi 12 - 1)

def ENHARMONIC_MAP : List (String × String) :=
  [("Cb", "B"), ("Db", "C#"), ("Eb", "D#"), ("Fb", "E"), ("Gb", "F#"), ("Ab", "G#"),
   ("Bb", "A#"), ("E#", "F"), ("B#", "C")]

def isNoteLetter (c : Char) : Bool := 'A' ≤ c && c ≤ 'G'

/-- Whole-string match of the regex `^([A-G][b#]?)(-?\d+)?$` used by
`normalizeNoteName`, returning the name group and the octave group
(`none` when the regex does not match). -/
def matchNoteName (s : String) : Option (String × String) :=
  match s.data with
  | [] => none
  | c :: rest =>
    if isNoteLetter c then
      let (name, rest2) :=
        match rest with
        | d :: r =>
          if d = 'b' || d = '#' then (String.mk [c, d], r) else (String.mk [c], d :: r)
        | [] => (String.mk [c], ([] : List Char))
      match rest2 with
      | [] => some (name, "")
      | _ =>
        let digits := if rest2.head? == some '-' then rest2.tail else rest2
        if !digits.isEmpty && digits.all Char.isDigit then some (name, String.mk rest2)
        else none
    else none

/-- `normalizeNoteName` from `src/constants.ts`: flat/uncommon spellings are
mapped to the canonical sharp spelling, the octave suffix is preserved, and
strings the regex rejects are returned unchanged. -/
def normalizeNoteName (note : String) : String :=
  match matchNoteName note with
  | none => note
  | some (name, octave) =>
    match ENHARMONIC_MAP.lookup name with
    | some canon => canon ++ octave
    | none => note

/-- JS `arr.slice(-n)`: the last `n` elements.  JS treats `-0` as `0`, and
`arr.slice(0)` is the whole array. -/
def jsSliceLast (l : List α) (n : Nat) : List α :=
  if n = 0 then l else l.drop (l.length - n)

/-! ### Data model — `src/types.ts` -/

inductive NoteStatus
  | neutral
  | success
deriving DecidableEq

structure HistoryNote where
  id : Nat
  midi : Int
  name : String
  status : NoteStatus
  isFading : Bool
  isReleased : Bool
deriving DecidableEq

structure LocalizedContent where
  ru : String
  en : String
deriving DecidableEq

structure LessonStep where
  title : LocalizedContent
  explanation : LocalizedContent
  targets : List String
  highlight : List String
deriving DecidableEq

structure Lesson where
  title : LocalizedContent
  description : LocalizedContent
  steps : List LessonStep
deriving DecidableEq

inductive QuestionType
  | interval
  | chord
  | scale
  | quiz
deriving DecidableEq

structure ExamQuestion where
  id : String
  question : LocalizedContent
  qtype : QuestionType
  pattern : List Int
  exampleSolution : List String
deriving DecidableEq

structure ExamSession where
  questions : List ExamQuestion
  currentIndex : Nat
  correctAnswers : Nat
  isFinished : Bool
deriving DecidableEq

inductive ExamFeedback
  | none
  | success
  | failure
deriving DecidableEq

inductive HintState
  | idle
  | hintReady
  | hintActive
  | skipReady
deriving DecidableEq

/-! ### Application state — the `useState`/`useRef` fields of the `App`
component in `src/App.tsx` that the note-matching engine reads or writes.
The ref shadow copies (`activeMidisRef` etc.) always mirror the state, so a
single record suffices. -/

structure AppState where
  baseOctave : Int
  /-- JS `Set<number>` in insertion order; duplicate-free by construction. -/
  activeMidis : List Int
  inputHistory : List HistoryNote
  currentLesson : Option Lesson
  currentStepIndex : Nat
  isStepComplete : Bool
  canSkipStep : Bool
  playedSequence : List String
  isExamMode : Bool
  currentExam : Option ExamSession
  examFeedback : ExamFeedback
  examHintState : HintState
  isLoading : Bool
  /-- Stands in for the `Date.now()`-based unique history ids. -/
  nextHistoryId : Nat
deriving DecidableEq

/-- `currentStepRef.current`: the active lesson step, if any. -/
def currentStep (s : AppState) : Option LessonStep :=
  s.currentLesson.bind fun l => l.steps[s.currentStepIndex]?

/-! ### Session-switching handlers — `src/App.tsx` -/

def handleHome (s : AppState) : AppState :=
  { s with
    currentLesson := none
    currentStepIndex := 0
    isExamMode := false
    currentExam := none
    examFeedback := ExamFeedback.none
    examHintState := HintState.idle
    playedSequence := []
    canSkipStep := false
    activeMidis := []
    inputHistory := []
    isLoading := false }

def handleLessonStart (lesson : Lesson) (s : AppState) : AppState :=
  { s with
    currentLesson := some lesson
    currentStepIndex := 0
    playedSequence := []
    inputHistory := []
    isStepComplete := false
    canSkipStep := false
    isExamMode := false
    currentExam := none }

def handleExamStart (exam : ExamSession) (s : AppState) : AppState :=
  { s with
    currentLesson := none
    isExamMode := true
    currentExam := some exam
    examFeedback := ExamFeedback.none
    examHintState := HintState.idle
    canSkipStep := false
    activeMidis := []
    inputHistory := [] }

def handleNextExamQuestion (s : AppState) : AppState :=
  match s.currentExam with
  | none => s
  | some exam =>
    let s1 := { s with
      examFeedback := ExamFeedback.none
      examHintState := HintState.idle
      canSkipStep := false
      activeMidis := []
      inputHistory := [] }
    let nextIndex := exam.currentIndex + 1
    if nextIndex < exam.questions.length then
      { s1 with currentExam := some { exam with currentIndex := nextIndex } }
    else
      { s1 with isExamMode := false, currentExam := none }

/-! ### Exam validation and note on/off — `validateExamInput`, `playNote`,
`stopNote` in `src/App.tsx`.

External side effects (the tone-engine call and the `setTimeout` that
schedules the exam-mistake ledger reset) are recorded as flags in
`PlayNoteResult`; the scheduled callbacks themselves are modelled by the
`mistakeResetFade`/`mistakeResetClear` functions below.  The 600 ms
faded-entry filter after a success and the 4000 ms release-fade of
`stopNote` only remove entries later and are not needed by any claim. -/

/-- Ledger append inside `playNote`: `[...prev, note].slice(-10)`. -/
def historyAppend (prev : List HistoryNote) (n : HistoryNote) : List HistoryNote :=
  jsSliceLast (prev ++ [n]) 10

/-- First phase of the exam-mistake reset scheduled by `playNote`
(fires after `MISTAKE_FADE_DELAY_MS`): every ledger entry starts fading. -/
def mistakeResetFade (h : List HistoryNote) : List HistoryNote :=
  h.map fun n => { n with isFading := true }

/-- Second phase (a further `MISTAKE_CLEAR_DELAY_MS` later): the ledger is
cleared. -/
def mistakeResetClear (_h : List HistoryNote) : List HistoryNote := []

def MISTAKE_FADE_DELAY_MS : Nat := 500

def MISTAKE_CLEAR_DELAY_MS : Nat := 500

def validateExamInput (s : AppState) (activeNotes : List Int) : AppState :=
  match s.currentExam with
  | none => s
  | some exam =>
    if s.examFeedback = ExamFeedback.success then s
    else
      match exam.questions[exam.currentIndex]? with
      | none => s
      | some question =>
        let pattern := question.pattern
        if activeNotes.length = 0 then s
        else if activeNotes.length < pattern.length then s
        else if isPatternMatch activeNotes pattern true then
          { s with
            examFeedback := ExamFeedback.success
            inputHistory := s.inputHistory.map fun n =>
              if activeNotes.contains n.midi && !n.isReleased then
                { n with status := NoteStatus.success }
              else { n with isFading := true } }
        else s

/-- The exam immediate-feedback branch of `playNote`
(`if (isExamModeRef.current && currentExamRef.current)`): `some b` when the
branch runs, where `b` is its `isSubPattern`; `none` when it is skipped. -/
def examSubPattern (s : AppState) (newActiveMidis : List Int) : Option Bool :=
  if s.isExamMode then
    match s.currentExam with
    | some exam =>
      match exam.questions[exam.currentIndex]? with
      | some question => some (isPatternMatch newActiveMidis question.pattern false)
      | none => none
    | none => none
  else none

structure PlayNoteResult where
  state : AppState
  /-- `audioService.playNote` was invoked. -/
  tonePlayed : Bool
  /-- The exam-mistake full ledger reset was scheduled. -/
  mistakeScheduled : Bool
deriving DecidableEq

def playNote (s : AppState) (midi : Int) : PlayNoteResult :=
  if s.activeMidis.contains midi then
    { state := s, tonePlayed := false, mistakeScheduled := false }
  else
    let newActiveMidis := s.activeMidis ++ [midi]
    let noteName := canonicalNoteName midi
    -- 1. lesson-mode immediate feedback
    let lessonStatus : NoteStatus :=
      match currentStep s with
      | some step =>
        if (step.targets.map normalizeNoteName).contains (normalizeNoteName noteName) then
          NoteStatus.success
        else NoteStatus.neutral
      | none => NoteStatus.neutral
    -- 2. exam-mode immediate feedback and error detection
    let initialStatus : NoteStatus :=
      match examSubPattern s newActiveMidis with
      | some true => NoteStatus.success
      | _ => lessonStatus
    let isExamMistake : Bool := examSubPattern s newActiveMidis == some false
    let newHistoryNote : HistoryNote :=
      { id := s.nextHistoryId, midi := midi, name := noteName,
        status := initialStatus, isFading := false, isReleased := false }
    let s1 := { s with
      activeMidis := newActiveMidis
      inputHistory := historyAppend s.inputHistory newHistoryNote
      nextHistoryId := s.nextHistoryId + 1 }
    if s.isExamMode then
      { state := validateExamInput s1 newActiveMidis, tonePlayed := true,
        mistakeScheduled := isExamMistake }
    else
      let s2 :=
        match currentStep s with
        | some step =>
          if !s.isStepComplete then
            let newSeq := jsSliceLast (s.playedSequence ++ [noteName]) step.targets.length
            let normalizedTargets := step.targets.map normalizeNoteName
            -- `newSeq.length === t.length && newSeq.every((v, i) => v === t[i])`
            -- is exactly list equality
            let isMatch := newSeq == normalizedTargets
            { s1 with
              playedSequence := newSeq
              isStepComplete := if isMatch then true else s1.isStepComplete }
          else s1
        | none => s1
      { state := s2, tonePlayed := true, mistakeScheduled := isExamMistake }

/-- The history-release update of `stopNote`: mark the most recent
non-released entry with this MIDI value as released (`findIndex` over the
reversed array). -/
def markReleased (h : List HistoryNote) (midi : Int) : List HistoryNote :=
  match h.reverse.findIdx? (fun n => n.midi == midi && !n.isReleased) with
  | none => h
  | some ridx =>
    let realIndex := h.length - 1 - ridx
    match h[realIndex]? with
    | some note => h.set realIndex { note with isReleased := true }
    | none => h

def stopNote (s : AppState) (midi : Int) : AppState :=
  let newSet := s.activeMidis.filter fun m => m != midi
  let s1 := { s with activeMidis := newSet }
  let s2 :=
    if s.isExamMode && newSet.length > 0 then validateExamInput s1 newSet else s1
  { s2 with inputHistory := markReleased s2.inputHistory midi }

/-- A physical note-on or note-off reaching `playNote`/`stopNote`. -/
inductive InputEvent
  | noteOn : Int → InputEvent
  | noteOff : Int → InputEvent

def appStep (s : AppState) : InputEvent → AppState
  | InputEvent.noteOn m => (playNote s m).state
  | InputEvent.noteOff m => stopNote s m

def runEvents (s : AppState) (events : List InputEvent) : AppState :=
  events.foldl appStep s

/-! ### Exam hint phase — the hint-timer `useEffect` and the handlers that
write `examHintState` (`src/App.tsx`).  The timer is armed only while an
exam is active and feedback is not `success`, and fires only from `idle`
(→ `hintReady`) or `hintActive` (→ `skipReady`); `handleShowHint` sets
`hintActive` (reachable only from `hintReady`: the Enter handler and the
control-panel button are both guarded); `handleNextExamQuestion`,
`handleExamStart` and `handleHome` set `idle`. -/

inductive HintEvent
  | hintTimerFires
  | showHint
  | nextQuestion
  | examStart
  | goHome

def hintTransition (examActive : Bool) (feedback : ExamFeedback) :
    HintState → HintEvent → HintState
  | h, HintEvent.hintTimerFires =>
    if examActive && !(feedback == ExamFeedback.success) then
      match h with
      | HintState.idle => HintState.hintReady
      | HintState.hintActive => HintState.skipReady
      | h => h
    else h
  | h, HintEvent.showHint =>
    -- `handleShowHint` itself is unconditional, but both of its call sites
    -- (the Enter branch of `handleKeyDown` and the control-panel hint
    -- button) fire only while the phase is `hintReady`.
    if h == HintState.hintReady then HintState.hintActive else h
  | _, HintEvent.nextQuestion => HintState.idle
  | _, HintEvent.examStart => HintState.idle
  | _, HintEvent.goHome => HintState.idle

/-- Position of each hint phase in the `idle → hintReady → hintActive →
skipReady` ladder. -/
def hintRank : HintState → Nat
  | HintState.idle => 0
  | HintState.hintReady => 1
  | HintState.hintActive => 2
  | HintState.skipReady => 3

/-! ### Keyboard-to-pitch mapper — `KEYBOARD_MAP` / `generatePianoKeys` in
`src/constants.ts` and the octave / shift handling of `handleKeyDown` /
`handleKeyUp` in `src/App.tsx`. -/

structure KeyMapEntry where
  code : String
  semitone : Int
  label : String
  ktype : String
deriving DecidableEq

def KEYBOARD_MAP : List KeyMapEntry :=
  [⟨"KeyZ", 0, "Z", "white"⟩, ⟨"KeyS", 1, "S", "black"⟩, ⟨"KeyX", 2, "X", "white"⟩,
   ⟨"KeyD", 3, "D", "black"⟩, ⟨"KeyC", 4, "C", "white"⟩, ⟨"KeyV", 5, "V", "white"⟩,
   ⟨"KeyG", 6, "G", "black"⟩, ⟨"KeyB", 7, "B", "white"⟩, ⟨"KeyH", 8, "H", "black"⟩,
   ⟨"KeyN", 9, "N", "white"⟩, ⟨"KeyJ", 10, "J", "black"⟩, ⟨"KeyM", 11, "M", "white"⟩,
   ⟨"KeyY", 12, "Y", "white"⟩, ⟨"Digit7", 13, "7", "black"⟩, ⟨"KeyU", 14, "U", "white"⟩,
   ⟨"Digit8", 15, "8", "black"⟩, ⟨"KeyI", 16, "I", "white"⟩, ⟨"KeyO", 17, "O", "white"⟩,
   ⟨"Digit0", 18, "0", "black"⟩, ⟨"KeyP", 19, "P", "white"⟩, ⟨"Minus", 20, "-", "black"⟩,
   ⟨"BracketLeft", 21, "[", "white"⟩, ⟨"Equal", 22, "=", "black"⟩,
   ⟨"BracketRight", 23, "]", "white"⟩]

/-- `NoteDefinition` from `src/types.ts`, without the `frequency` field
(a floating-point value consumed only by the tone engine; no claim here
depends on it). -/
structure NoteDef where
  note : String
  octave : Int
  ntype : String
  keyboardKey : String
  code : String
  midi : Int
deriving DecidableEq

def generatePianoKeys (baseOctave : Int) : List NoteDef :=
  let startMidi := (baseOctave + 1) * 12
  KEYBOARD_MAP.map fun k =>
    let midi := startMidi + k.semitone
    { note := NOTES.getD (Int.emod midi 12).toNat ""
      octave := Int.fdiv midi 12 - 1
      ntype := k.ktype
      keyboardKey := k.label
      code := k.code
      midi := midi }

/-- `handleKeyDown` ArrowLeft: `setBaseOctave(prev => Math.max(1, prev - 1))`. -/
def arrowLeft (baseOctave : Int) : Int := max 1 (baseOctave - 1)

/-- `handleKeyDown` ArrowRight: `setBaseOctave(prev => Math.min(7, prev + 1))`. -/
def arrowRight (baseOctave : Int) : Int := min 7 (baseOctave + 1)

/-- `handleKeyDown` ShiftLeft guard: the left octave-shift modifier is armed
only when the guard `if (baseOctave < 2) return` does not fire. -/
def shiftLeftAllowed (baseOctave : Int) : Bool := !(baseOctave < 2)

/-- `handleKeyDown` ShiftRight guard: `if (baseOctave > 6) return`. -/
def shiftRightAllowed (baseOctave : Int) : Bool := !(baseOctave > 6)

/-- `handleKeyDown`'s final MIDI value for a mapped key press:
`note.midi`, `-= 24` if the left shift modifier is armed, `+= 24` if the
right one is. -/
def finalKeyMidi (noteMidi : Int) (shiftLeftPressed shiftRightPressed : Bool) : Int :=
  let m1 := if shiftLeftPressed then noteMidi - 24 else noteMidi
  if shiftRightPressed then m1 + 24 else m1

/-! ### Concrete sample data for witnesses and counterexamples -/

/-- The initial component state of `App` (`useState` initial values). -/
def initialState : AppState where
  baseOctave := 3
  activeMidis := []
  inputHistory := []
  currentLesson := none
  currentStepIndex := 0
  isStepComplete := false
  canSkipStep := false
  playedSequence := []
  isExamMode := false
  currentExam := none
  examFeedback := ExamFeedback.none
  examHintState := HintState.idle
  isLoading := false
  nextHistoryId := 0

def emptyText : LocalizedContent := ⟨"", ""⟩

def sampleStep : LessonStep :=
  { title := emptyText, explanation := emptyText, targets := ["C4", "E4"], highlight := ["C4", "E4"] }

def sampleLesson : Lesson :=
  { title := emptyText, description := emptyText, steps := [sampleStep] }

/-- The app right after starting the `["C4","E4"]` lesson step. -/
def lessonState : AppState := handleLessonStart sampleLesson initialState

def sampleQuestion : ExamQuestion :=
  { id := "q1", question := emptyText, qtype := QuestionType.chord,
    pattern := [0, 3, 7], exampleSolution := ["C4", "D#4", "G4"] }

def sampleExam : ExamSession :=
  { questions := [sampleQuestion], currentIndex := 0, correctAnswers := 0, isFinished := false }

/-- The app right after starting the minor-triad exam question. -/
def examState : AppState := handleExamStart sampleExam initialState

/-- The exam state after its question has been answered successfully. -/
def examSuccessState : AppState := { examState with examFeedback := ExamFeedback.success }

/-- A menu-mode state in which MIDI 60 is held down. -/
def heldNoteState : AppState := { initialState with activeMidis := [60] }

/-! ### Theorems for the remaining claims -/

/-- `C2` counterexample: in the lesson step with targets `["C4","E4"]`,
pressing C4, then F4, then E4 (MIDI 60, 65, 64, each released before the
next press) does *not* complete the step — the claim's asserted outcome
(`isStepComplete` becomes `true`) is false at this input, because the
sequence matcher keeps a sliding window of the last `targets.length` played
notes rather than a cursor that ignores stray notes. -/
theorem lessonStray_counterexample :
    (runEvents lessonState
      [InputEvent.noteOn 60, InputEvent.noteOff 60, InputEvent.noteOn 65, InputEvent.noteOff 65,
       InputEvent.noteOn 64]).isStepComplete = false := by
  decide

/-- `C2` amended: a stray note is not ignored — it enters the sliding window
of the last `targets.length` played notes, and the step completes exactly
when that window equals the normalized target list.  So C4, F4, E4 leaves
the step with targets `["C4","E4"]` incomplete, while playing C4 and E4
consecutively afterwards (C4, F4, C4, E4) completes it. -/
theorem lessonStray_amended :
    (runEvents lessonState
      [InputEvent.noteOn 60, InputEvent.noteOff 60, InputEvent.noteOn 65, InputEvent.noteOff 65,
       InputEvent.noteOn 64]).isStepComplete = false ∧
    (runEvents lessonState
      [InputEvent.noteOn 60, InputEvent.noteOff 60, InputEvent.noteOn 65, InputEvent.noteOff 65,
       InputEvent.noteOn 60, InputEvent.noteOff 60, InputEvent.noteOn 64]).isStepComplete = true := by
  constructor
  · decide
  · decide

/-- `C3`: evaluation at the failing input.  `baseOctave = 6` is reachable
from the initial octave 3 by three ArrowRight presses; at that octave the
ShiftRight eligibility guard passes, yet pressing the mapped key
`BracketRight` (the top of the two-octave cluster, MIDI 107) with the right
octave-shift modifier armed produces MIDI 131, outside `[0,127]` — the
eligibility clamp does not prevent out-of-range notes at the upper extreme. -/
theorem octaveShift_out_of_range :
    arrowRight (arrowRight (arrowRight initialState.baseOctave)) = 6 ∧
    shiftRightAllowed 6 = true ∧
    ((generatePianoKeys 6).find? (fun k => k.code == "BracketRight")).map
      (fun k => finalKeyMidi k.midi false true) = some 131 ∧
    ¬ ((131 : Int) ≤ 127) := by
  decide

/-- `C4` counterexample: starting a lesson while MIDI 60 is held leaves the
held-note set non-empty — `handleLessonStart` clears the input-history
ledger but never clears `activeMidis`, so not every session switch empties
both. -/
theorem sessionSwitch_counterexample :
    ¬ ((handleLessonStart sampleLesson heldNoteState).activeMidis = []) := by
  decide

/-- `C4` amended: returning to the menu and starting an exam clear both the
held-note set and the input-history ledger; starting a lesson clears the
ledger but leaves the held-note set exactly as it was. -/
theorem sessionSwitch_amended (s : AppState) (lesson : Lesson) (exam : ExamSession) :
    (handleHome s).activeMidis = [] ∧ (handleHome s).inputHistory = [] ∧
    (handleExamStart exam s).activeMidis = [] ∧ (handleExamStart exam s).inputHistory = [] ∧
    (handleLessonStart lesson s).inputHistory = [] ∧
    (handleLessonStart lesson s).activeMidis = s.activeMidis := by
  refine ⟨rfl, rfl, rfl, rfl, rfl, rfl⟩

/-- `C7`: no single transition of the hint phase skips a state — every
transition raises the rank by at most one, in particular `idle` can never
reach `skipReady` in one step, and `skipReady` is only entered from
`hintActive` (or kept from `skipReady` by a stale timer) — and the
question-change handler (`handleNextExamQuestion`, which also fires when
the exam ends) always resets the phase to `idle` whenever an exam is
active. -/
theorem hintPhase_ordering :
    (∀ (ea : Bool) (fb : ExamFeedback) (h : HintState) (e : HintEvent),
      hintRank (hintTransition ea fb h e) ≤ hintRank h + 1) ∧
    (∀ (ea : Bool) (fb : ExamFeedback) (e : HintEvent),
      hintTransition ea fb HintState.idle e ≠ HintState.skipReady) ∧
    (∀ (ea : Bool) (fb : ExamFeedback) (h : HintState) (e : HintEvent),
      hintTransition ea fb h e = HintState.skipReady →
        h = HintState.hintActive ∨ h = HintState.skipReady) ∧
    (∀ s : AppState, s.currentExam.isSome →
      (handleNextExamQuestion s).examHintState = HintState.idle) := by
  refine ⟨?_, ?_, ?_, ?_⟩
  · intro ea fb h e
    cases e <;> cases h <;> cases ea <;> cases fb <;> decide
  · intro ea fb e
    cases e <;> cases ea <;> cases fb <;> decide
  · intro ea fb h e
    cases e <;> cases h <;> cases ea <;> cases fb <;> simp [hintTransition]
  · intro s hs
    cases hx : s.currentExam with
    | none => rw [hx] at hs; simp at hs
    | some exam =>
      simp only [handleNextExamQuestion, hx]
      split <;> rfl

/-- Witness for `C7`: advancing from the sample exam's only question resets
the hint phase to `idle`. -/
theorem hintPhase_ordering_witness :
    (handleNextExamQuestion examState).examHintState = HintState.idle :=
  hintPhase_ordering.2.2.2 examState (by decide)

/-- `C10`: a `playNote` call for a MIDI value already in the held-note set
is a complete no-op — the state (held set, ledger, lesson and exam
sub-state) is unchanged, the tone engine is not invoked, and no mistake
reset is scheduled. -/
theorem playNote_held_noop (s : AppState) (midi : Int)
    (h : s.activeMidis.contains midi = true) :
    playNote s midi = { state := s, tonePlayed := false, mistakeScheduled := false } := by
  unfold playNote
  rw [if_pos h]

/-- Witness for `C10`: re-pressing the held MIDI 60 changes nothing. -/
theorem playNote_held_noop_witness :
    playNote heldNoteState 60 =
      { state := heldNoteState, tonePlayed := false, mistakeScheduled := false } :=
  playNote_held_noop heldNoteState 60 (by decide)

/-! ### Ledger-bound lemmas (claim C6) -/

theorem historyAppend_length_le (prev : List HistoryNote) (n : HistoryNote) :
    (historyAppend prev n).length ≤ 10 := by
  unfold historyAppend jsSliceLast
  rw [if_neg (by norm_num)]
  simp only [List.length_drop]
  omega

theorem jsSliceLast_suffix (l : List α) (n : Nat) : (jsSliceLast l n).IsSuffix l := by
  unfold jsSliceLast
  split
  · exact List.suffix_refl l
  · exact List.drop_suffix _ l

theorem validateExamInput_history_length (s : AppState) (act : List Int) :
    (validateExamInput s act).inputHistory.length = s.inputHistory.length := by
  unfold validateExamInput
  cases hx : s.currentExam with
  | none => rfl
  | some exam =>
    by_cases hf : s.examFeedback = ExamFeedback.success
    · simp only [hf, ite_true]
    · simp only [hf, ite_false]
      cases hq : exam.questions[exam.currentIndex]? with
      | none => rfl
      | some q =>
        by_cases h0 : act.length = 0
        · simp only [h0, ite_true]
        · simp only [h0, ite_false]
          by_cases hlt : act.length < q.pattern.length
          · simp only [hlt, ite_true]
          · simp only [hlt, ite_false]
            by_cases hmt : isPatternMatch act q.pattern true = true
            · simp [hmt, List.length_map]
            · simp [hmt]

theorem validateExamInput_history_le (s : AppState) (act : List Int)
    (h : s.inputHistory.length ≤ 10) :
    (validateExamInput s act).inputHistory.length ≤ 10 := by
  rw [validateExamInput_history_length]
  exact h

theorem markReleased_length (h : List HistoryNote) (midi : Int) :
    (markReleased h midi).length = h.length := by
  unfold markReleased
  repeat' split <;> simp [List.length_set]

theorem playNote_history_le (s : AppState) (midi : Int)
    (hle : s.inputHistory.length ≤ 10) :
    (playNote s midi).state.inputHistory.length ≤ 10 := by
  unfold playNote
  cases hc : s.activeMidis.contains midi with
  | true => exact hle
  | false =>
    cases hm : s.isExamMode with
    | true => exact validateExamInput_history_le _ _ (historyAppend_length_le _ _)
    | false =>
      cases hstep : currentStep s with
      | none => exact historyAppend_length_le _ _
      | some step =>
        cases hsc : s.isStepComplete with
        | true => exact historyAppend_length_le _ _
        | false => exact historyAppend_length_le _ _

theorem stopNote_history_length (s : AppState) (midi : Int) :
    (stopNote s midi).inputHistory.length = s.inputHistory.length := by
  have hrel : ∀ s2 : AppState, s2.inputHistory.length = s.inputHistory.length →
      ({ s2 with inputHistory := markReleased s2.inputHistory midi }).inputHistory.length =
        s.inputHistory.length := by
    intro s2 h2
    exact (markReleased_length s2.inputHistory midi).trans h2
  unfold stopNote
  apply hrel
  split
  · rw [validateExamInput_history_length]
  · rfl

/-- `C6`: starting from any state whose ledger respects the bound, any
sequence of note-on/off events keeps the input-history ledger at ≤ 10
entries; moreover each append keeps only a suffix of `prev ++ [entry]`
(the oldest entries are silently dropped — the append is total, no error
path exists). -/
theorem inputHistory_bounded (s : AppState) (events : List InputEvent)
    (hle : s.inputHistory.length ≤ 10) :
    (runEvents s events).inputHistory.length ≤ 10 ∧
    ∀ (prev : List HistoryNote) (n : HistoryNote),
      (historyAppend prev n).length ≤ 10 ∧
        (historyAppend prev n).IsSuffix (prev ++ [n]) := by
  refine ⟨?_, fun prev n => ⟨historyAppend_length_le prev n, jsSliceLast_suffix _ _⟩⟩
  induction events generalizing s with
  | nil => exact hle
  | cons e rest ih =>
    cases e with
    | noteOn m => exact ih _ (playNote_history_le s m hle)
    | noteOff m => exact ih _ ((stopNote_history_length s m).trans_le hle)

/-- Witness for `C6` from the app's initial state and one note-on. -/
theorem inputHistory_bounded_witness :
    (runEvents initialState [InputEvent.noteOn 60]).inputHistory.length ≤ 10 ∧
    ∀ (prev : List HistoryNote) (n : HistoryNote),
      (historyAppend prev n).length ≤ 10 ∧
        (historyAppend prev n).IsSuffix (prev ++ [n]) :=
  inputHistory_bounded initialState [InputEvent.noteOn 60] (by decide)

/-! ### Feedback-freeze lemmas (claim C8) -/

theorem validateExamInput_of_success (s : AppState) (act : List Int)
    (h : s.examFeedback = ExamFeedback.success) :
    validateExamInput s act = s := by
  unfold validateExamInput
  cases hx : s.currentExam with
  | none => rfl
  | some exam => simp [h]

/-- `C8`: once `examFeedback` is `success`, neither a note-on nor a note-off
changes it (the validator early-returns), and only a question transition
(`handleNextExamQuestion`, whenever an exam is active) changes it again —
resetting it to `none`. -/
theorem examFeedback_frozen (s : AppState) (midi : Int)
    (h : s.examFeedback = ExamFeedback.success) :
    (playNote s midi).state.examFeedback = ExamFeedback.success ∧
    (stopNote s midi).examFeedback = ExamFeedback.success ∧
    (s.currentExam.isSome →
      (handleNextExamQuestion s).examFeedback = ExamFeedback.none) := by
  have hite : ∀ (c : Bool) (a b : AppState), a.examFeedback = ExamFeedback.success →
      b.examFeedback = ExamFeedback.success →
      (if c = true then a else b).examFeedback = ExamFeedback.success := by
    intro c a b ha hb
    split
    · exact ha
    · exact hb
  refine ⟨?_, ?_, ?_⟩
  · unfold playNote
    cases hc : s.activeMidis.contains midi with
    | true => exact h
    | false =>
      cases hm : s.isExamMode with
      | true =>
        show (validateExamInput _ _).examFeedback = ExamFeedback.success
        rw [validateExamInput_of_success]
        · exact h
        · exact h
      | false =>
        cases hstep : currentStep s with
        | none => exact h
        | some step =>
          cases hsc : s.isStepComplete with
          | true => exact h
          | false => exact hite _ _ _ h h
  · simp only [stopNote]
    split
    · rw [validateExamInput_of_success]
      · exact h
      · exact h
    · exact h
  · intro hs
    cases hx : s.currentExam with
    | none => rw [hx] at hs; simp at hs
    | some exam =>
      simp only [handleNextExamQuestion, hx]
      split <;> rfl

/-- Witness for `C8` on the sample exam with feedback already `success`. -/
theorem examFeedback_frozen_witness :
    (playNote examSuccessState 60).state.examFeedback = ExamFeedback.success ∧
    (stopNote examSuccessState 60).examFeedback = ExamFeedback.success ∧
    (examSuccessState.currentExam.isSome →
      (handleNextExamQuestion examSuccessState).examFeedback = ExamFeedback.none) :=
  examFeedback_frozen examSuccessState 60 rfl

/-! ### Exam-mistake lemmas (claim C9) -/

/-- Strict matching implies non-strict matching (pattern-matcher
soundness). -/
theorem isPatternMatch_strict_imp (l p : List Int) :
    isPatternMatch l p true = true → isPatternMatch l p false = true := by
  rw [isPatternMatch_iff_exists_root, isPatternMatch_iff_exists_root]
  rintro ⟨root, hmem, hsub, _⟩
  exact ⟨root, hmem, hsub, by simp⟩

theorem historyAppend_getLast (prev : List HistoryNote) (n : HistoryNote) :
    (historyAppend prev n).getLast? = some n := by
  unfold historyAppend jsSliceLast
  rw [if_neg (by norm_num)]
  rw [List.drop_append_of_le_length
    (by simp only [List.length_append, List.length_singleton]; omega)]
  simp

theorem validateExamInput_no_strict (s : AppState) (act : List Int)
    (exam : ExamSession) (q : ExamQuestion)
    (hexam : s.currentExam = some exam)
    (hq : exam.questions[exam.currentIndex]? = some q)
    (hstrict : isPatternMatch act q.pattern true = false) :
    validateExamInput s act = s := by
  unfold validateExamInput
  rw [hexam]
  by_cases hf : s.examFeedback = ExamFeedback.success
  · simp [hf]
  · simp only [hf, ite_false]
    rw [hq]
    by_cases h0 : act.length = 0
    · simp [h0]
    · simp only [h0, ite_false]
      by_cases hlt : act.length < q.pattern.length
      · simp [hlt]
      · simp [hlt, hstrict]

/-- `C9`: in exam mode (with the lesson session off, as guaranteed by
session exclusivity), a note-on whose resulting held set fails even the
non-strict subset check is a mistake: the entry is appended with `neutral`
status and the full ledger reset is scheduled — `mistakeScheduled` is set
regardless of `examFeedback`, the first phase (after
`MISTAKE_FADE_DELAY_MS` = 500 ms) marks every entry fading, and the second
(after a further `MISTAKE_CLEAR_DELAY_MS` = 500 ms) clears the ledger. -/
theorem examMistake_resets_history (s : AppState) (midi : Int)
    (exam : ExamSession) (q : ExamQuestion)
    (hmode : s.isExamMode = true)
    (hexam : s.currentExam = some exam)
    (hq : exam.questions[exam.currentIndex]? = some q)
    (hlesson : s.currentLesson = none)
    (hheld : s.activeMidis.contains midi = false)
    (hfail : isPatternMatch (s.activeMidis ++ [midi]) q.pattern false = false) :
    (playNote s midi).mistakeScheduled = true ∧
    (playNote s midi).state.inputHistory.getLast? =
      some { id := s.nextHistoryId, midi := midi, name := canonicalNoteName midi,
             status := NoteStatus.neutral, isFading := false, isReleased := false } ∧
    (∀ h : List HistoryNote, ∀ n ∈ mistakeResetFade h, n.isFading = true) ∧
    (∀ h : List HistoryNote, mistakeResetClear h = []) ∧
    MISTAKE_FADE_DELAY_MS = 500 ∧ MISTAKE_CLEAR_DELAY_MS = 500 := by
  have hsub : examSubPattern s (s.activeMidis ++ [midi]) = some false := by
    simp [examSubPattern, hmode, hexam, hq, hfail]
  have hstep : currentStep s = none := by simp [currentStep, hlesson]
  have hstrict : isPatternMatch (s.activeMidis ++ [midi]) q.pattern true = false := by
    cases hx : isPatternMatch (s.activeMidis ++ [midi]) q.pattern true with
    | false => rfl
    | true => rw [isPatternMatch_strict_imp _ _ hx] at hfail; exact absurd hfail (by simp)
  unfold playNote
  rw [if_neg (by rw [hheld]; exact Bool.false_ne_true)]
  simp only [hsub, hstep, hmode, if_true]
  refine ⟨by simp, ?_, ?_, fun h => rfl, rfl, rfl⟩
  · rw [validateExamInput_no_strict _ _ exam q (by exact hexam) hq hstrict]
    exact historyAppend_getLast _ _
  · intro h n hn
    simp only [mistakeResetFade, List.mem_map] at hn
    obtain ⟨m, _, rfl⟩ := hn
    rfl

/-- Witness for `C9`: on the minor-triad question, holding `{60}` and then
pressing 65 (held set `{60, 65}` fits no root of `[0,3,7]`) schedules the
full ledger reset and logs the new note as `neutral`. -/
theorem examMistake_resets_history_witness :
    ((playNote (playNote examState 60).state 65).mistakeScheduled = true ∧
      (playNote (playNote examState 60).state 65).state.inputHistory.getLast? =
        some { id := (playNote examState 60).state.nextHistoryId, midi := 65,
               name := canonicalNoteName 65, status := NoteStatus.neutral,
               isFading := false, isReleased := false } ∧
      (∀ h : List HistoryNote, ∀ n ∈ mistakeResetFade h, n.isFading = true) ∧
      (∀ h : List HistoryNote, mistakeResetClear h = []) ∧
      MISTAKE_FADE_DELAY_MS = 500 ∧ MISTAKE_CLEAR_DELAY_MS = 500) :=
  examMistake_resets_history (playNote examState 60).state 65 sampleExam sampleQuestion
    (by decide) (by decide) (by decide) (by decide) (by decide) (by decide)

end DeCompose
